import Mathlib

/-!
# Verification of the velocity-tracker core (src/check_flights.py)

Shallow embedding of the pure computations of the flight-offer tracker:

* the points-booster purchase engine (BOOSTER_TABLE, booster_cost),
* the offer selection tails of search_cash_fares and search_velocity_seats
  (partition by preferred carrier, stable sort by price key, take the head
  of each part),
* the price-percentile estimator price_percentile_label,
* the snapshot builder summarise_for_state and the change detector build_diff.

Python ints are modelled as Int, Python floats as Rat (the code only performs
field arithmetic and comparisons on them), Python's truthiness tests and
default values are modelled explicitly where the code relies on them.
-/

namespace VelocityTracker

/-! ## Points Booster price table and booster_cost -/

/-- The booster price table: points tier ↦ AUD price (source lines 57-70).
Listed in the source's (ascending) key order. -/
def BOOSTER_TABLE : List (Nat × Int) :=
  [(1000, 36), (1500, 51), (2000, 68), (2500, 85),
   (3000, 101), (3500, 118), (4000, 135), (4500, 152),
   (5000, 168), (6000, 201), (7000, 233), (8000, 264),
   (9000, 296), (10000, 325), (11000, 353), (12000, 375),
   (13000, 399), (14000, 427), (15000, 452), (16000, 469),
   (17000, 492), (18000, 512), (19000, 535), (20000, 555),
   (21000, 580), (22000, 605), (23000, 629), (24000, 653),
   (25000, 677), (26000, 698), (27000, 720), (28000, 743),
   (29000, 765), (30000, 787), (35000, 894), (40000, 994),
   (45000, 1086), (50000, 1172), (60000, 1404), (70000, 1638),
   (80000, 1872), (90000, 2106), (100000, 2340),
   (150000, 3510), (200000, 4680), (250000, 5850)]

/-- BOOSTER_TIERS = sorted(BOOSTER_TABLE.keys()); the table above is already
listed in ascending key order, so this is the sorted tier list. -/
def BOOSTER_TIERS : List Nat := BOOSTER_TABLE.map Prod.fst

/-- BOOSTER_TABLE[tier]: dictionary lookup of a tier's price. -/
def boosterPrice (t : Nat) : Int :=
  ((BOOSTER_TABLE.find? (fun p => decide (p.1 = t))).map Prod.snd).getD 0

/-- next((t for t in BOOSTER_TIERS if t >= chunk), 250_000): the first
(= smallest, the list being ascending) tier at least chunk, defaulting
to 250000. -/
def tierFor (chunk : Int) : Nat :=
  (BOOSTER_TIERS.find? (fun (t : Nat) => decide (chunk ≤ (t : Int)))).getD 250000

/-- The while-loop of booster_cost (source lines 79-84), as a fuel-indexed
recursion.  Each iteration with remaining > 0 subtracts
chunk = min remaining 250000 ≥ 1 from remaining, so fuel = remaining.toNat
iterations always suffice (boosterLoop is only ever applied that way). -/
def boosterLoop : Nat → Int → Int × Int
  | 0, _ => (0, 0)
  | fuel + 1, remaining =>
    if 0 < remaining then
      ((tierFor (min remaining 250000) : Int)
          + (boosterLoop fuel (remaining - min remaining 250000)).1,
        boosterPrice (tierFor (min remaining 250000))
          + (boosterLoop fuel (remaining - min remaining 250000)).2)
    else (0, 0)

/-- booster_cost(points_needed): round up to the nearest booster tier,
splitting purchases above 250k.  Returns (points_bought, aud_cost). -/
def booster_cost (points_needed : Int) : Int × Int :=
  boosterLoop points_needed.toNat points_needed

lemma boosterLoop_succ (fuel : Nat) (r : Int) :
    boosterLoop (fuel + 1) r =
      if 0 < r then
        ((tierFor (min r 250000) : Int) + (boosterLoop fuel (r - min r 250000)).1,
          boosterPrice (tierFor (min r 250000)) + (boosterLoop fuel (r - min r 250000)).2)
      else (0, 0) := rfl

lemma boosterLoop_nonpos (fuel : Nat) (r : Int) (h : r ≤ 0) :
    boosterLoop fuel r = (0, 0) := by
  cases fuel with
  | zero => rfl
  | succ n => rw [boosterLoop_succ, if_neg (by omega)]

lemma tierFor_ge {chunk : Int} (h : chunk ≤ 250000) : chunk ≤ (tierFor chunk : Int) := by
  unfold tierFor
  cases hf : BOOSTER_TIERS.find? (fun (t : Nat) => decide (chunk ≤ (t : Int))) with
  | none => simpa using h
  | some t => simpa using List.find?_some hf

lemma boosterPrice_nonneg (t : Nat) : 0 ≤ boosterPrice t := by
  unfold boosterPrice
  cases hf : BOOSTER_TABLE.find? (fun p => decide (p.1 = t)) with
  | none => simp
  | some pr =>
    have hm : pr ∈ BOOSTER_TABLE := List.mem_of_find?_eq_some hf
    have hall : ∀ x ∈ BOOSTER_TABLE, 0 ≤ x.2 := by decide
    simpa using hall pr hm

lemma boosterLoop_spec (fuel : Nat) :
    ∀ r : Int, r ≤ (fuel : Int) →
      r ≤ (boosterLoop fuel r).1 ∧ 0 ≤ (boosterLoop fuel r).2 := by
  induction fuel with
  | zero =>
    intro r h
    constructor
    · simpa [boosterLoop] using h
    · simp [boosterLoop]
  | succ n ih =>
    intro r h
    rw [boosterLoop_succ]
    by_cases hr : 0 < r
    · rw [if_pos hr]
      have hch1 : 1 ≤ min r 250000 := le_min (by omega) (by norm_num)
      have hch2 : min r 250000 ≤ 250000 := min_le_right _ _
      have hrec := ih (r - min r 250000) (by push_cast at h ⊢; omega)
      have htier := tierFor_ge hch2
      constructor
      · have := hrec.1
        simp only []
        linarith
      · have := hrec.2
        have hp := boosterPrice_nonneg (tierFor (min r 250000))
        simp only []
        linarith
    · rw [if_neg hr]
      exact ⟨by omega, le_refl 0⟩

/-- For 0 < n ≤ 250000 the loop performs exactly one purchase: the smallest
tier covering n, at that tier's listed price. -/
lemma booster_cost_single {n : Int} (h0 : 0 < n) (h : n ≤ 250000) :
    booster_cost n = ((tierFor n : Int), boosterPrice (tierFor n)) := by
  unfold booster_cost
  obtain ⟨k, hk⟩ : ∃ k, n.toNat = k + 1 := ⟨n.toNat - 1, by omega⟩
  rw [hk, boosterLoop_succ, if_pos h0, min_eq_left h, sub_self,
    boosterLoop_nonpos k 0 le_rfl]
  simp

/-- C1: for every non-negative integer points_needed, booster_cost returns a
pair (points_purchased, purchase_price) with points_purchased ≥ points_needed
and purchase_price ≥ 0, and booster_cost 0 = (0, 0). -/
theorem booster_cost_covers_requirement :
    (∀ n : Int, 0 ≤ n → n ≤ (booster_cost n).1 ∧ 0 ≤ (booster_cost n).2) ∧
      booster_cost 0 = (0, 0) := by
  constructor
  · intro n hn
    exact boosterLoop_spec n.toNat n (by omega)
  · rfl

theorem booster_cost_covers_requirement_witness :
    0 ≤ (3 : Int) ∧ 3 ≤ (booster_cost 3).1 ∧ 0 ≤ (booster_cost 3).2 :=
  ⟨by norm_num, booster_cost_covers_requirement.1 3 (by norm_num)⟩

/-- C4 (amended): for every points_needed exactly equal to a tier of the
purchase table, booster_cost returns that tier and its exact listed price,
with no rounding up to the next tier. -/
theorem booster_cost_exact_tier :
    ∀ t ∈ BOOSTER_TIERS, booster_cost (t : Int) = ((t : Int), boosterPrice t) := by
  intro t ht
  have hbounds : ∀ t ∈ BOOSTER_TIERS, 0 < t ∧ t ≤ 250000 := by decide
  have hfix : ∀ t ∈ BOOSTER_TIERS, tierFor (t : Int) = t := by decide
  obtain ⟨h0, h1⟩ := hbounds t ht
  rw [booster_cost_single (by exact_mod_cast h0) (by exact_mod_cast h1), hfix t ht]

theorem booster_cost_exact_tier_witness :
    (50000 : Nat) ∈ BOOSTER_TIERS ∧ booster_cost 50000 = (50000, 1172) := by
  refine ⟨by decide, ?_⟩
  have h := booster_cost_exact_tier 50000 (by decide)
  norm_num at h
  rw [h]
  decide

/-- C4 (counterexample): 135,000 is not a tier of the purchase table, and
booster_cost 135000 rounds up to the 150,000-point tier's price, 3510 —
refuting the claim's instantiation that a 135,000-point requirement is priced
at a "135,000-tier's own listed price". -/
theorem booster_cost_135000_rounds_up :
    (135000 : Nat) ∉ BOOSTER_TIERS ∧ booster_cost 135000 = (150000, 3510) := by
  refine ⟨by decide, ?_⟩
  rw [booster_cost_single (by norm_num) (by norm_num)]
  decide

/-- C5 (amended): for every negative points_needed, booster_cost silently
returns the default (0, 0); there is no InvalidInput failure in the code. -/
theorem booster_cost_neg_silent (n : Int) (h : n < 0) : booster_cost n = (0, 0) := by
  unfold booster_cost
  rw [show n.toNat = 0 by omega]
  rfl

theorem booster_cost_neg_silent_witness :
    (-7 : Int) < 0 ∧ booster_cost (-7) = (0, 0) :=
  ⟨by norm_num, booster_cost_neg_silent (-7) (by norm_num)⟩

/-- C5 (counterexample): booster_cost (-5) silently returns (0, 0) — the
computation does not fail with any InvalidInput condition on a negative
points requirement. -/
theorem booster_cost_neg_returns_default : booster_cost (-5) = (0, 0) := rfl

/-! ## Price percentile estimator -/

/-- The five-point price distribution returned by get_price_analysis
(source lines 365-371); every field is always populated (absent upstream
values default to 0.0 there). -/
structure PriceMetrics where
  min : ℚ
  low : ℚ
  median : ℚ
  high : ℚ
  max : ℚ
deriving DecidableEq

/-- Python's int() applied to a float: truncation toward zero. -/
def pyInt (q : ℚ) : Int := if 0 ≤ q then ⌊q⌋ else ⌈q⌉

/-- The emoji marker appended to the percentile label. -/
inductive Marker
  | green
  | yellow
  | red
deriving DecidableEq

/-- The percentile part of the label string: either an interpolated
estimate rendered as a numbered percentile, or the fixed upper bucket
rendered as the string of a percentile above 95. -/
inductive PctEstimate
  | approx (p : Int)
  | above95
deriving DecidableEq

/-- The return value of price_percentile_label: either the fixed
"price data unavailable" marker, or a label carrying the percentile
estimate, the emoji marker, and the signed deviation from the median
(price_pp - median, rendered as a dollar amount above or below median). -/
inductive LabelResult
  | unavailable
  | label (pct : PctEstimate) (marker : Marker) (vsMedian : ℚ)
deriving DecidableEq

/-- price_percentile_label (source lines 375-412).  The Python guard
reads: if not metrics or not metrics.get("median") — a present metrics
dict whose median equals 0 is treated as unavailable (float truthiness). -/
def price_percentile_label (price_pp : ℚ) (metrics : Option PriceMetrics) : LabelResult :=
  match metrics with
  | none => .unavailable
  | some m =>
    if m.median = 0 then .unavailable
    else
      if price_pp ≤ m.min then .label (.approx 10) .green (price_pp - m.median)
      else if price_pp ≤ m.low then .label (.approx 25) .green (price_pp - m.median)
      else if price_pp ≤ m.median then
        .label (.approx (pyInt (25 + (price_pp - m.low) / max (m.median - m.low) 1 * 25)))
          .green (price_pp - m.median)
      else if price_pp ≤ m.high then
        .label (.approx (pyInt (50 + (price_pp - m.median) / max (m.high - m.median) 1 * 25)))
          .yellow (price_pp - m.median)
      else if price_pp ≤ m.max then
        .label (.approx (pyInt (75 + (price_pp - m.high) / max (m.max - m.high) 1 * 25)))
          .red (price_pp - m.median)
      else .label .above95 .red (price_pp - m.median)

/-- C10: a fully-populated distribution whose median equals 0 yields the
"data unavailable" marker, not a numeric percentile: the median is tested
for truthiness, not for presence. -/
theorem median_zero_treated_as_unavailable (p mn low hi mx : ℚ) :
    price_percentile_label p (some ⟨mn, low, 0, hi, mx⟩) = .unavailable := by
  simp [price_percentile_label]

/-- C8: for every price, an absent distribution — or one whose median is
missing (modelled by the defaulted value 0) — yields the fixed
"data unavailable" marker; the function is total, so it never raises nor
fabricates a percentile. -/
theorem absent_distribution_unavailable :
    (∀ p : ℚ, price_percentile_label p none = .unavailable) ∧
      ∀ (p : ℚ) (m : PriceMetrics), m.median = 0 →
        price_percentile_label p (some m) = .unavailable := by
  constructor
  · intro p
    rfl
  · intro p m h
    simp [price_percentile_label, h]

theorem absent_distribution_unavailable_witness :
    price_percentile_label 5 none = .unavailable ∧
      price_percentile_label 5 (some ⟨1, 2, 0, 3, 4⟩) = .unavailable :=
  ⟨absent_distribution_unavailable.1 5,
    absent_distribution_unavailable.2 5 ⟨1, 2, 0, 3, 4⟩ rfl⟩

/-- The interpolation percentile for the low-to-median branch exactly as the
spec's words describe it (claim C7): denominator median − low, treated as 1
only when median = low. -/
def specInterpPct (price low med : ℚ) : Int :=
  pyInt (25 + (price - low) / (if med = low then 1 else med - low) * 25)

/-- C7 (counterexample): for the distribution (0, 100, 100.5, 200, 300) at
price 100.5 the code clamps the denominator to max(median − low, 1) = 1 and
reports the 37th percentile, while the claimed formula
(price−low)/(median−low) would give the 50th; so the claim's stated
interpolation rule does not match the code when 0 < median − low < 1. -/
theorem interp_denominator_counterexample :
    price_percentile_label (201 / 2) (some ⟨0, 100, 201 / 2, 200, 300⟩) =
        .label (.approx 37) .green 0 ∧
      specInterpPct (201 / 2) 100 (201 / 2) = 50 ∧ (37 : Int) ≠ 50 := by
  refine ⟨?_, ?_, by norm_num⟩
  · rw [price_percentile_label]
    rw [if_neg (by norm_num), if_neg (by norm_num), if_neg (by norm_num),
      if_pos (by norm_num)]
    have h1 : (25 : ℚ) + (201 / 2 - 100) / max ((201 : ℚ) / 2 - 100) 1 * 25 = 75 / 2 := by
      rw [show max ((201 : ℚ) / 2 - 100) 1 = 1 from max_eq_right (by norm_num)]
      norm_num
    rw [h1]
    have h2 : pyInt (75 / 2) = 37 := by
      rw [pyInt, if_pos (by norm_num)]
      exact Int.floor_eq_iff.mpr (by norm_num)
    rw [h2]
    norm_num
  · rw [specInterpPct, if_neg (by norm_num)]
    have h1 : (25 : ℚ) + (201 / 2 - 100) / ((201 : ℚ) / 2 - 100) * 25 = 50 := by
      norm_num
    rw [h1]
    rw [pyInt, if_pos (by norm_num)]
    norm_num

/-- C7 (amended): with the median present, each interpolation branch is
linear interpolation whose denominator is max(gap, 1): the claimed
denominator (median − low, etc.) is used only when the gap is at least 1,
and every smaller gap — including the zero gap of a degenerate table — is
clamped to 1, so the computation never divides by zero and always yields a
defined numeric label. -/
theorem interp_branches (price : ℚ) (m : PriceMetrics) (hmed : m.median ≠ 0) :
    (m.min ≤ m.low → m.low < price → price ≤ m.median →
      price_percentile_label price (some m) =
        .label (.approx (pyInt (25 + (price - m.low) / max (m.median - m.low) 1 * 25)))
          .green (price - m.median)) ∧
    (m.min ≤ m.low → m.low ≤ m.median → m.median < price → price ≤ m.high →
      price_percentile_label price (some m) =
        .label (.approx (pyInt (50 + (price - m.median) / max (m.high - m.median) 1 * 25)))
          .yellow (price - m.median)) ∧
    (m.min ≤ m.low → m.low ≤ m.median → m.median ≤ m.high → m.high < price →
      price ≤ m.max →
      price_percentile_label price (some m) =
        .label (.approx (pyInt (75 + (price - m.high) / max (m.max - m.high) 1 * 25)))
          .red (price - m.median)) := by
  refine ⟨?_, ?_, ?_⟩
  · intro ha hb hc
    rw [price_percentile_label, if_neg hmed, if_neg (by linarith), if_neg (by linarith),
      if_pos hc]
  · intro ha hb hc hd
    rw [price_percentile_label, if_neg hmed, if_neg (by linarith), if_neg (by linarith),
      if_neg (by linarith), if_pos hd]
  · intro ha hb hc hd he
    rw [price_percentile_label, if_neg hmed, if_neg (by linarith), if_neg (by linarith),
      if_neg (by linarith), if_neg (by linarith), if_pos he]

theorem interp_branches_witness :
    price_percentile_label 25 (some ⟨10, 20, 30, 40, 50⟩) =
      .label (.approx (pyInt (25 + ((25 : ℚ) - 20) / max ((30 : ℚ) - 20) 1 * 25)))
        .green ((25 : ℚ) - 30) :=
  (interp_branches 25 ⟨10, 20, 30, 40, 50⟩ (by norm_num)).1
    (by norm_num) (by norm_num) (by norm_num)

/-! ## Monotonicity of the percentile estimate (C6) -/

/-- Numeric rank of a reported label, for stating monotonicity: an
interpolated estimate ranks as its own percentile number; the fixed upper
bucket of prices above the distribution maximum (the spec's "fixed upper
percentile") ranks above every interpolated value, which never exceeds 100;
the unavailable marker ranks below everything (for a fixed distribution it
is either every price's label or no price's label). -/
def labelRank : LabelResult → Int
  | .unavailable => -1
  | .label (.approx p) _ _ => p
  | .label .above95 _ _ => 101

lemma pyInt_mono {q₁ q₂ : ℚ} (h : q₁ ≤ q₂) : pyInt q₁ ≤ pyInt q₂ := by
  rw [pyInt, pyInt]
  split_ifs with ha hb hb
  · exact Int.floor_le_floor h
  · linarith
  · have h1 : ⌈q₁⌉ ≤ 0 := Int.ceil_le.mpr (by push_cast; linarith)
    have h2 : (0 : ℤ) ≤ ⌊q₂⌋ := Int.floor_nonneg.mpr hb
    omega
  · exact Int.ceil_le_ceil h

lemma pyInt_le {q : ℚ} {n : ℤ} (h : q ≤ (n : ℚ)) : pyInt q ≤ n := by
  rw [pyInt]
  split_ifs
  · calc ⌊q⌋ ≤ ⌊(n : ℚ)⌋ := Int.floor_le_floor h
      _ = n := Int.floor_intCast n
  · exact Int.ceil_le.mpr h

lemma pyInt_ge {q : ℚ} {n : ℤ} (h : (n : ℚ) ≤ q) : n ≤ pyInt q := by
  rw [pyInt]
  split_ifs
  · exact Int.le_floor.mpr h
  · calc n = ⌈(n : ℚ)⌉ := (Int.ceil_intCast n).symm
      _ ≤ ⌈q⌉ := Int.ceil_le_ceil h

/-- An interpolated branch value lies between its base and base + 25. -/
lemma interp_piece_bounds {p a b : ℚ} (base : ℤ) (hap : a < p) (hpb : p ≤ b) :
    base ≤ pyInt (base + (p - a) / max (b - a) 1 * 25) ∧
      pyInt (base + (p - a) / max (b - a) 1 * 25) ≤ base + 25 := by
  have hd : (1 : ℚ) ≤ max (b - a) 1 := le_max_right _ _
  have hd0 : (0 : ℚ) < max (b - a) 1 := by linarith
  have hr0 : 0 ≤ (p - a) / max (b - a) 1 := div_nonneg (by linarith) (le_of_lt hd0)
  have hr1 : (p - a) / max (b - a) 1 ≤ 1 := by
    rw [div_le_one hd0]
    calc p - a ≤ b - a := by linarith
      _ ≤ max (b - a) 1 := le_max_left _ _
  constructor
  · exact pyInt_ge (by linarith)
  · refine pyInt_le ?_
    push_cast
    linarith

/-- An interpolated branch value is monotone in the price. -/
lemma interp_piece_mono {p₁ p₂ : ℚ} (a b : ℚ) (base : ℤ) (h : p₁ ≤ p₂) :
    pyInt (base + (p₁ - a) / max (b - a) 1 * 25) ≤
      pyInt (base + (p₂ - a) / max (b - a) 1 * 25) := by
  apply pyInt_mono
  have hd0 : (0 : ℚ) < max (b - a) 1 := lt_of_lt_of_le one_pos (le_max_right _ _)
  have hdiv : (p₁ - a) / max (b - a) 1 ≤ (p₂ - a) / max (b - a) 1 := by gcongr
  linarith

/-- The percentile number computed by price_percentile_label when the median
is present, with the above-max bucket rendered as rank 101 (cf. labelRank). -/
def pctVal (p : ℚ) (m : PriceMetrics) : Int :=
  if p ≤ m.min then 10
  else if p ≤ m.low then 25
  else if p ≤ m.median then pyInt (25 + (p - m.low) / max (m.median - m.low) 1 * 25)
  else if p ≤ m.high then pyInt (50 + (p - m.median) / max (m.high - m.median) 1 * 25)
  else if p ≤ m.max then pyInt (75 + (p - m.high) / max (m.max - m.high) 1 * 25)
  else 101

lemma ratio_nonneg {p a b : ℚ} (h : a ≤ p) : 0 ≤ (p - a) / max (b - a) 1 :=
  div_nonneg (by linarith) (le_of_lt (lt_of_lt_of_le one_pos (le_max_right _ _)))

lemma ratio_le_one {p a b : ℚ} (h : p ≤ b) : (p - a) / max (b - a) 1 ≤ 1 := by
  have hd0 : (0 : ℚ) < max (b - a) 1 := lt_of_lt_of_le one_pos (le_max_right _ _)
  rw [div_le_one hd0]
  calc p - a ≤ b - a := by linarith
    _ ≤ max (b - a) 1 := le_max_left _ _

lemma ratio_mono {a b p q : ℚ} (h : p ≤ q) :
    (p - a) / max (b - a) 1 ≤ (q - a) / max (b - a) 1 := by
  have hd0 : (0 : ℚ) < max (b - a) 1 := lt_of_lt_of_le one_pos (le_max_right _ _)
  gcongr

lemma labelRank_eq_pctVal (p : ℚ) (m : PriceMetrics) (h : m.median ≠ 0) :
    labelRank (price_percentile_label p (some m)) = pctVal p m := by
  rw [price_percentile_label, pctVal, if_neg h]
  split_ifs <;> rfl

lemma pctVal_lb (m : PriceMetrics) (p : ℚ) : 10 ≤ pctVal p m := by
  rw [pctVal]
  split_ifs with h1 h2 h3 h4 h5
  · exact le_refl _
  · norm_num
  · refine le_trans (by norm_num) (pyInt_ge (n := 25) ?_)
    have hr := ratio_nonneg (p := p) (a := m.low) (b := m.median) (le_of_lt (not_le.mp h2))
    push_cast
    linarith
  · refine le_trans (by norm_num) (pyInt_ge (n := 50) ?_)
    have hr := ratio_nonneg (p := p) (a := m.median) (b := m.high) (le_of_lt (not_le.mp h3))
    push_cast
    linarith
  · refine le_trans (by norm_num) (pyInt_ge (n := 75) ?_)
    have hr := ratio_nonneg (p := p) (a := m.high) (b := m.max) (le_of_lt (not_le.mp h4))
    push_cast
    linarith
  · norm_num

lemma pctVal_lb_gt_min (m : PriceMetrics) {p : ℚ} (h : m.min < p) : 25 ≤ pctVal p m := by
  rw [pctVal, if_neg (not_le.mpr h)]
  split_ifs with h2 h3 h4 h5
  · exact le_refl _
  · refine pyInt_ge ?_
    have hr := ratio_nonneg (p := p) (a := m.low) (b := m.median) (le_of_lt (not_le.mp h2))
    push_cast
    linarith
  · refine le_trans (by norm_num) (pyInt_ge (n := 50) ?_)
    have hr := ratio_nonneg (p := p) (a := m.median) (b := m.high) (le_of_lt (not_le.mp h3))
    push_cast
    linarith
  · refine le_trans (by norm_num) (pyInt_ge (n := 75) ?_)
    have hr := ratio_nonneg (p := p) (a := m.high) (b := m.max) (le_of_lt (not_le.mp h4))
    push_cast
    linarith
  · norm_num

lemma pctVal_lb_gt_med (m : PriceMetrics) {p : ℚ} (ha : m.min < p) (hb : m.low < p)
    (hc : m.median < p) : 50 ≤ pctVal p m := by
  rw [pctVal, if_neg (not_le.mpr ha), if_neg (not_le.mpr hb), if_neg (not_le.mpr hc)]
  split_ifs with h4 h5
  · refine pyInt_ge ?_
    have hr := ratio_nonneg (p := p) (a := m.median) (b := m.high) (le_of_lt hc)
    push_cast
    linarith
  · refine le_trans (by norm_num) (pyInt_ge (n := 75) ?_)
    have hr := ratio_nonneg (p := p) (a := m.high) (b := m.max) (le_of_lt (not_le.mp h4))
    push_cast
    linarith
  · norm_num

lemma pctVal_lb_gt_high (m : PriceMetrics) {p : ℚ} (ha : m.min < p) (hb : m.low < p)
    (hc : m.median < p) (hd : m.high < p) : 75 ≤ pctVal p m := by
  rw [pctVal, if_neg (not_le.mpr ha), if_neg (not_le.mpr hb), if_neg (not_le.mpr hc),
    if_neg (not_le.mpr hd)]
  split_ifs with h5
  · refine pyInt_ge ?_
    have hr := ratio_nonneg (p := p) (a := m.high) (b := m.max) (le_of_lt hd)
    push_cast
    linarith
  · norm_num

lemma pctVal_gt_max (m : PriceMetrics) {p : ℚ} (ha : m.min < p) (hb : m.low < p)
    (hc : m.median < p) (hd : m.high < p) (he : m.max < p) : pctVal p m = 101 := by
  rw [pctVal, if_neg (not_le.mpr ha), if_neg (not_le.mpr hb), if_neg (not_le.mpr hc),
    if_neg (not_le.mpr hd), if_neg (not_le.mpr he)]

lemma pctVal_ub_le_med (m : PriceMetrics) {p : ℚ} (h : p ≤ m.median) : pctVal p m ≤ 50 := by
  rw [pctVal]
  split_ifs with h1 h2
  · norm_num
  · norm_num
  · refine pyInt_le ?_
    have hr := ratio_le_one (p := p) (a := m.low) (b := m.median) h
    push_cast
    linarith

lemma pctVal_ub_le_high (m : PriceMetrics) {p : ℚ} (h : p ≤ m.high) : pctVal p m ≤ 75 := by
  rw [pctVal]
  split_ifs with h1 h2 h3
  · norm_num
  · norm_num
  · refine le_trans (pyInt_le (n := 50) ?_) (by norm_num)
    have hr := ratio_le_one (p := p) (a := m.low) (b := m.median) h3
    push_cast
    linarith
  · refine pyInt_le ?_
    have hr := ratio_le_one (p := p) (a := m.median) (b := m.high) h
    push_cast
    linarith

lemma pctVal_ub_le_max (m : PriceMetrics) {p : ℚ} (h : p ≤ m.max) : pctVal p m ≤ 100 := by
  rw [pctVal]
  split_ifs with h1 h2 h3 h4
  · norm_num
  · norm_num
  · refine le_trans (pyInt_le (n := 50) ?_) (by norm_num)
    have hr := ratio_le_one (p := p) (a := m.low) (b := m.median) h3
    push_cast
    linarith
  · refine le_trans (pyInt_le (n := 75) ?_) (by norm_num)
    have hr := ratio_le_one (p := p) (a := m.median) (b := m.high) h4
    push_cast
    linarith
  · refine pyInt_le ?_
    have hr := ratio_le_one (p := p) (a := m.high) (b := m.max) h
    push_cast
    linarith

lemma pctVal_mono (m : PriceMetrics) {p q : ℚ} (h : p ≤ q) :
    pctVal p m ≤ pctVal q m := by
  by_cases a1 : p ≤ m.min
  · rw [show pctVal p m = 10 by rw [pctVal, if_pos a1]]
    exact pctVal_lb m q
  by_cases a2 : p ≤ m.low
  · rw [show pctVal p m = 25 by rw [pctVal, if_neg a1, if_pos a2]]
    exact pctVal_lb_gt_min m (lt_of_lt_of_le (not_le.mp a1) h)
  by_cases a3 : p ≤ m.median
  · by_cases b3 : q ≤ m.median
    · rw [show pctVal p m = pyInt (25 + (p - m.low) / max (m.median - m.low) 1 * 25) by
        rw [pctVal, if_neg a1, if_neg a2, if_pos a3]]
      rw [show pctVal q m = pyInt (25 + (q - m.low) / max (m.median - m.low) 1 * 25) by
        rw [pctVal, if_neg (by push_neg at a1 ⊢; linarith),
          if_neg (by push_neg at a2 ⊢; linarith), if_pos b3]]
      refine pyInt_mono ?_
      have hr := ratio_mono (a := m.low) (b := m.median) h
      linarith
    · calc pctVal p m ≤ 50 := pctVal_ub_le_med m a3
        _ ≤ pctVal q m :=
          pctVal_lb_gt_med m (by push_neg at a1; linarith) (by push_neg at a2; linarith)
            (not_le.mp b3)
  by_cases a4 : p ≤ m.high
  · by_cases b4 : q ≤ m.high
    · rw [show pctVal p m = pyInt (50 + (p - m.median) / max (m.high - m.median) 1 * 25) by
        rw [pctVal, if_neg a1, if_neg a2, if_neg a3, if_pos a4]]
      rw [show pctVal q m = pyInt (50 + (q - m.median) / max (m.high - m.median) 1 * 25) by
        rw [pctVal, if_neg (by push_neg at a1 ⊢; linarith),
          if_neg (by push_neg at a2 ⊢; linarith),
          if_neg (by push_neg at a3 ⊢; linarith), if_pos b4]]
      refine pyInt_mono ?_
      have hr := ratio_mono (a := m.median) (b := m.high) h
      linarith
    · calc pctVal p m ≤ 75 := pctVal_ub_le_high m a4
        _ ≤ pctVal q m :=
          pctVal_lb_gt_high m (by push_neg at a1; linarith) (by push_neg at a2; linarith)
            (by push_neg at a3; linarith) (not_le.mp b4)
  by_cases a5 : p ≤ m.max
  · by_cases b5 : q ≤ m.max
    · rw [show pctVal p m = pyInt (75 + (p - m.high) / max (m.max - m.high) 1 * 25) by
        rw [pctVal, if_neg a1, if_neg a2, if_neg a3, if_neg a4, if_pos a5]]
      rw [show pctVal q m = pyInt (75 + (q - m.high) / max (m.max - m.high) 1 * 25) by
        rw [pctVal, if_neg (by push_neg at a1 ⊢; linarith),
          if_neg (by push_neg at a2 ⊢; linarith),
          if_neg (by push_neg at a3 ⊢; linarith),
          if_neg (by push_neg at a4 ⊢; linarith), if_pos b5]]
      refine pyInt_mono ?_
      have hr := ratio_mono (a := m.high) (b := m.max) h
      linarith
    · calc pctVal p m ≤ 100 := pctVal_ub_le_max m a5
        _ ≤ 101 := by norm_num
        _ ≤ pctVal q m := by
          rw [pctVal_gt_max m (by push_neg at a1; linarith) (by push_neg at a2; linarith)
            (by push_neg at a3; linarith) (by push_neg at a4; linarith) (not_le.mp b5)]
  · rw [pctVal_gt_max m (not_le.mp a1) (not_le.mp a2) (not_le.mp a3) (not_le.mp a4)
      (not_le.mp a5)]
    rw [pctVal_gt_max m (by push_neg at a1; linarith) (by push_neg at a2; linarith)
      (by push_neg at a3; linarith) (by push_neg at a4; linarith)
      (by push_neg at a5; linarith)]

/-- C6: for a fixed valid distribution (min ≤ low ≤ median ≤ high ≤ max), the
percentile rank reported by price_percentile_label is monotonically
non-decreasing as the per-person price increases, across all branch
boundaries including the transition from the interpolated top branch to the
fixed upper bucket above the maximum. -/
theorem percentile_monotone (m : PriceMetrics)
    (h1 : m.min ≤ m.low) (h2 : m.low ≤ m.median) (h3 : m.median ≤ m.high)
    (h4 : m.high ≤ m.max) {p q : ℚ} (hpq : p ≤ q) :
    labelRank (price_percentile_label p (some m)) ≤
      labelRank (price_percentile_label q (some m)) := by
  by_cases hmed : m.median = 0
  · simp [price_percentile_label, hmed]
  · rw [labelRank_eq_pctVal p m hmed, labelRank_eq_pctVal q m hmed]
    exact pctVal_mono m hpq

theorem percentile_monotone_witness :
    labelRank (price_percentile_label 2 (some ⟨1, 2, 3, 4, 5⟩)) ≤
      labelRank (price_percentile_label 10 (some ⟨1, 2, 3, 4, 5⟩)) :=
  percentile_monotone ⟨1, 2, 3, 4, 5⟩ (by norm_num) (by norm_num) (by norm_num)
    (by norm_num) (by norm_num)

/-! ## Offer records and the selection logic of search_cash_fares /
search_velocity_seats

The network fetching and record construction are I/O; the selection tail
(partition into Qatar / other, stable sort by the price key, return the head
of each part, Qatar first) is embedded below.  Python's list.sort is a
stable sort, modelled by List.mergeSort.  -/

/-- One cash-fare record (the fields the selection and snapshot read). -/
structure CashOffer where
  carrier_codes : List String
  price_total : ℚ
  price_pp : ℚ
deriving DecidableEq

/-- is_qatar = "QR" in carriers_on_flight. -/
def CashOffer.is_qatar (o : CashOffer) : Bool := o.carrier_codes.contains "QR"

/-- One Velocity reward-seat record (the fields the selection and snapshot
read). -/
structure RewardOffer where
  carrier_codes : List String
  points_pp : Int
  taxes_pp : ℚ
  seats_avail : Int
deriving DecidableEq

/-- is_qatar = "QR" in carrier_codes. -/
def RewardOffer.is_qatar (o : RewardOffer) : Bool := o.carrier_codes.contains "QR"

/-- Selection tail of search_cash_fares (source lines 262-276): partition by
is_qatar, sort each part by price_total (stable), return Qatar's cheapest
then the others' cheapest, either possibly absent. -/
def search_cash_fares_core (pool : List CashOffer) : List CashOffer :=
  ((pool.filter (fun o => o.is_qatar)).mergeSort
      (fun x y => decide (x.price_total ≤ y.price_total))).take 1
    ++ ((pool.filter (fun o => !o.is_qatar)).mergeSort
      (fun x y => decide (x.price_total ≤ y.price_total))).take 1

/-- Selection tail of search_velocity_seats (source lines 494-507): same
shape, ranked by points_pp. -/
def search_velocity_seats_core (pool : List RewardOffer) : List RewardOffer :=
  ((pool.filter (fun o => o.is_qatar)).mergeSort
      (fun x y => decide (x.points_pp ≤ y.points_pp))).take 1
    ++ ((pool.filter (fun o => !o.is_qatar)).mergeSort
      (fun x y => decide (x.points_pp ≤ y.points_pp))).take 1

/-- The first element of a list attaining the minimal key — i.e. the
cheapest element, ties broken by input order. -/
def firstMinBy {α κ : Type} [LinearOrder κ] (k : α → κ) : List α → Option α
  | [] => none
  | a :: l =>
    some (match firstMinBy k l with
      | none => a
      | some b => if k b < k a then b else a)

lemma firstMinBy_eq_none {α κ : Type} [LinearOrder κ] (k : α → κ) (l : List α) :
    firstMinBy k l = none ↔ l = [] := by
  cases l <;> simp [firstMinBy]

/-- The head of a stable sort by key is the first element attaining the
minimal key. -/
lemma head_mergeSort_firstMinBy {α κ : Type} [LinearOrder κ] (k : α → κ) :
    ∀ l : List α,
      (l.mergeSort (fun x y => decide (k x ≤ k y))).head? = firstMinBy k l := by
  have trans : ∀ a b c : α, decide (k a ≤ k b) → decide (k b ≤ k c) →
      decide (k a ≤ k c) := by
    intro a b c hab hbc
    simp only [decide_eq_true_eq] at *
    exact le_trans hab hbc
  have total : ∀ a b : α, decide (k a ≤ k b) || decide (k b ≤ k a) := by
    intro a b
    simpa using le_total (k a) (k b)
  intro l
  induction l with
  | nil => simp [firstMinBy]
  | cons a l ih =>
    obtain ⟨l₁, l₂, h₁, h₂, h₃⟩ := List.mergeSort_cons trans total a l
    cases l₁ with
    | nil =>
      simp only [List.nil_append] at h₁ h₂
      rw [h₁, firstMinBy]
      cases hfm : firstMinBy k l with
      | none => simp
      | some b =>
        rw [h₂] at ih
        rw [hfm] at ih
        have hs := List.sorted_mergeSort trans total (a :: l)
        rw [h₁] at hs
        cases l₂ with
        | nil => simp at ih
        | cons c t =>
          have hcb : c = b := by simpa using ih
          subst hcb
          have hab : k a ≤ k c := by
            have hr := (List.pairwise_cons.mp hs).1 c (by simp)
            simpa using hr
          simp [if_neg (not_lt.mpr hab)]
    | cons c l₁' =>
      rw [h₁]
      rw [h₂] at ih
      have hfm : firstMinBy k l = some c := by
        rw [← ih]
        simp
      have hca : k c < k a := by
        have hb := h₃ c (by simp)
        simp only [Bool.not_eq_true', decide_eq_false_iff_not] at hb
        exact not_le.mp hb
      rw [firstMinBy, hfm]
      simp [if_pos hca]

/-- A value returned by firstMinBy belongs to the list and minimizes the
key over it. -/
lemma firstMinBy_mem_le {α κ : Type} [LinearOrder κ] (k : α → κ) :
    ∀ (l : List α) (b : α), firstMinBy k l = some b →
      b ∈ l ∧ ∀ x ∈ l, k b ≤ k x := by
  intro l
  induction l with
  | nil => intro b h; simp [firstMinBy] at h
  | cons a l ih =>
    intro b h
    rw [firstMinBy] at h
    cases hfm : firstMinBy k l with
    | none =>
      rw [hfm] at h
      have hab : a = b := by simpa using h
      have hl : l = [] := (firstMinBy_eq_none k l).mp hfm
      subst hl
      subst hab
      exact ⟨by simp, by simp⟩
    | some c =>
      rw [hfm] at h
      have hif : (if k c < k a then c else a) = b := by simpa using h
      obtain ⟨hc, hcall⟩ := ih c hfm
      by_cases hlt : k c < k a
      · rw [if_pos hlt] at hif
        subst hif
        refine ⟨List.mem_cons_of_mem _ hc, ?_⟩
        intro x hx
        rcases List.mem_cons.mp hx with hxa | hxl
        · subst hxa
          exact le_of_lt hlt
        · exact hcall x hxl
      · rw [if_neg hlt] at hif
        subst hif
        refine ⟨List.mem_cons_self _ _, ?_⟩
        intro x hx
        rcases List.mem_cons.mp hx with hxa | hxl
        · subst hxa
          exact le_refl _
        · exact le_trans (not_lt.mp hlt) (hcall x hxl)

/-- firstMinBy on a filtered list: the result satisfies the filter and
minimizes the key among the elements satisfying it. -/
lemma firstMin_filter_spec {α κ : Type} [LinearOrder κ] (k : α → κ) (p : α → Bool)
    (l : List α) (b : α) (h : firstMinBy k (l.filter p) = some b) :
    b ∈ l ∧ p b = true ∧ ∀ x ∈ l, p x = true → k b ≤ k x := by
  obtain ⟨hm, hall⟩ := firstMinBy_mem_le k _ b h
  have hmem := List.mem_filter.mp hm
  exact ⟨hmem.1, hmem.2, fun x hx hpx => hall x (List.mem_filter.mpr ⟨hx, hpx⟩)⟩

lemma take_one_eq_head_toList {α : Type} (l : List α) : l.take 1 = l.head?.toList := by
  cases l <;> rfl

lemma toList_length_le_one {α : Type} (o : Option α) : o.toList.length ≤ 1 := by
  cases o <;> simp

lemma search_cash_fares_core_eq (pool : List CashOffer) :
    search_cash_fares_core pool =
      (firstMinBy (fun o => o.price_total) (pool.filter (fun o => o.is_qatar))).toList
        ++ (firstMinBy (fun o => o.price_total)
            (pool.filter (fun o => !o.is_qatar))).toList := by
  rw [search_cash_fares_core, take_one_eq_head_toList, take_one_eq_head_toList,
    head_mergeSort_firstMinBy, head_mergeSort_firstMinBy]

lemma search_velocity_seats_core_eq (pool : List RewardOffer) :
    search_velocity_seats_core pool =
      (firstMinBy (fun o => o.points_pp) (pool.filter (fun o => o.is_qatar))).toList
        ++ (firstMinBy (fun o => o.points_pp)
            (pool.filter (fun o => !o.is_qatar))).toList := by
  rw [search_velocity_seats_core, take_one_eq_head_toList, take_one_eq_head_toList,
    head_mergeSort_firstMinBy, head_mergeSort_firstMinBy]

/-- C2: for every candidate pool, each selector returns at most two offers —
the cheapest preferred-carrier (QR) offer and, independently, the cheapest
offer without the preferred carrier, in that order, either possibly absent;
an empty pool gives an empty result, and a pool with only non-preferred
offers gives exactly the single cheapest offer and no preferred entry; cash
offers are ranked by total price, reward offers by points per person, ties
broken by input order (firstMinBy picks the first minimum in input order). -/
theorem offer_selector_spec (cp : List CashOffer) (rp : List RewardOffer) :
    (search_cash_fares_core cp =
        (firstMinBy (fun o => o.price_total) (cp.filter (fun o => o.is_qatar))).toList
          ++ (firstMinBy (fun o => o.price_total)
              (cp.filter (fun o => !o.is_qatar))).toList) ∧
    (search_velocity_seats_core rp =
        (firstMinBy (fun o => o.points_pp) (rp.filter (fun o => o.is_qatar))).toList
          ++ (firstMinBy (fun o => o.points_pp)
              (rp.filter (fun o => !o.is_qatar))).toList) ∧
    (search_cash_fares_core cp).length ≤ 2 ∧
    (search_velocity_seats_core rp).length ≤ 2 ∧
    (cp = [] → search_cash_fares_core cp = []) ∧
    (rp = [] → search_velocity_seats_core rp = []) ∧
    (cp.filter (fun o => o.is_qatar) = [] → cp ≠ [] →
      ∃ b, search_cash_fares_core cp = [b] ∧ b.is_qatar = false ∧ b ∈ cp ∧
        ∀ x ∈ cp, b.price_total ≤ x.price_total) ∧
    (∀ b, firstMinBy (fun o => o.price_total) (cp.filter (fun o => o.is_qatar)) = some b →
      b ∈ cp ∧ b.is_qatar = true ∧
        ∀ x ∈ cp, x.is_qatar = true → b.price_total ≤ x.price_total) ∧
    (∀ b, firstMinBy (fun o => o.price_total) (cp.filter (fun o => !o.is_qatar)) = some b →
      b ∈ cp ∧ b.is_qatar = false ∧
        ∀ x ∈ cp, x.is_qatar = false → b.price_total ≤ x.price_total) ∧
    (∀ b, firstMinBy (fun o => o.points_pp) (rp.filter (fun o => o.is_qatar)) = some b →
      b ∈ rp ∧ b.is_qatar = true ∧
        ∀ x ∈ rp, x.is_qatar = true → b.points_pp ≤ x.points_pp) ∧
    (∀ b, firstMinBy (fun o => o.points_pp) (rp.filter (fun o => !o.is_qatar)) = some b →
      b ∈ rp ∧ b.is_qatar = false ∧
        ∀ x ∈ rp, x.is_qatar = false → b.points_pp ≤ x.points_pp) := by
  refine ⟨search_cash_fares_core_eq cp, search_velocity_seats_core_eq rp, ?_, ?_,
    ?_, ?_, ?_, ?_, ?_, ?_, ?_⟩
  · rw [search_cash_fares_core_eq cp, List.length_append]
    have t1 := toList_length_le_one
      (firstMinBy (fun o => o.price_total) (cp.filter (fun o => o.is_qatar)))
    have t2 := toList_length_le_one
      (firstMinBy (fun o => o.price_total) (cp.filter (fun o => !o.is_qatar)))
    omega
  · rw [search_velocity_seats_core_eq rp, List.length_append]
    have t1 := toList_length_le_one
      (firstMinBy (fun o => o.points_pp) (rp.filter (fun o => o.is_qatar)))
    have t2 := toList_length_le_one
      (firstMinBy (fun o => o.points_pp) (rp.filter (fun o => !o.is_qatar)))
    omega
  · intro h
    subst h
    simp [search_cash_fares_core]
  · intro h
    subst h
    simp [search_velocity_seats_core]
  · intro hq hne
    rw [search_cash_fares_core_eq cp, hq]
    have hall : ∀ x ∈ cp, x.is_qatar = false := by
      intro x hx
      by_contra hc
      have : x ∈ cp.filter (fun o => o.is_qatar) := by
        refine List.mem_filter.mpr ⟨hx, ?_⟩
        simpa using hc
      rw [hq] at this
      simp at this
    have hfe : cp.filter (fun o => !o.is_qatar) = cp := by
      refine List.filter_eq_self.mpr ?_
      intro x hx
      simpa using hall x hx
    rw [hfe]
    cases hfm : firstMinBy (fun o => o.price_total) cp with
    | none =>
      exact absurd ((firstMinBy_eq_none _ cp).mp hfm) hne
    | some b =>
      obtain ⟨hm, hmin⟩ := firstMinBy_mem_le (fun o => o.price_total) cp b hfm
      exact ⟨b, by simp [firstMinBy], hall b hm, hm, hmin⟩
  · intro b h
    exact firstMin_filter_spec _ _ _ _ h
  · intro b h
    obtain ⟨h1, h2, h3⟩ := firstMin_filter_spec _ _ _ _ h
    refine ⟨h1, by simpa using h2, ?_⟩
    intro x hx hxq
    exact h3 x hx (by simpa using hxq)
  · intro b h
    exact firstMin_filter_spec _ _ _ _ h
  · intro b h
    obtain ⟨h1, h2, h3⟩ := firstMin_filter_spec _ _ _ _ h
    refine ⟨h1, by simpa using h2, ?_⟩
    intro x hx hxq
    exact h3 x hx (by simpa using hxq)

theorem offer_selector_spec_witness :
    search_cash_fares_core [] = [] ∧ search_velocity_seats_core [] = [] ∧
      (∃ b, search_cash_fares_core [CashOffer.mk ["EK"] 100 50] = [b] ∧
        b.is_qatar = false ∧ b ∈ [CashOffer.mk ["EK"] 100 50] ∧
        ∀ x ∈ [CashOffer.mk ["EK"] 100 50], b.price_total ≤ x.price_total) :=
  ⟨(offer_selector_spec [] []).2.2.2.2.1 rfl,
    (offer_selector_spec [] []).2.2.2.2.2.1 rfl,
    (offer_selector_spec [CashOffer.mk ["EK"] 100 50] []).2.2.2.2.2.2.1
      (by decide) (by decide)⟩

/-! ## Snapshot builder (summarise_for_state) and change detector
(build_diff) -/

/-- Python's round() on a float: round-half-to-even (banker's rounding). -/
def pyRound (q : ℚ) : Int :=
  if Int.fract q < 1 / 2 then ⌊q⌋
  else if 1 / 2 < Int.fract q then ⌊q⌋ + 1
  else if ⌊q⌋ % 2 = 0 then ⌊q⌋ else ⌊q⌋ + 1

lemma pyRound_intCast (n : ℤ) : pyRound ((n : ℚ)) = n := by
  rw [pyRound, Int.fract_intCast, if_pos (by norm_num)]
  exact Int.floor_intCast n

/-- The flat snapshot dict built by summarise_for_state: metric name ↦
int-or-None.  The five price metrics are None when the offer list is empty;
the two seat metrics are always present (the code defaults them to the int 0
when no reward offer exists), hence always of the form some. -/
structure Snapshot where
  biz_cash_pp : Option Int
  biz_pts_pp_through : Option Int
  biz_pts_pp_doh_syd : Option Int
  eco_cash_pp : Option Int
  eco_pts_pp : Option Int
  biz_seats_through : Option Int
  biz_seats_doh_syd : Option Int
deriving DecidableEq

/-- cash_pp helper of summarise_for_state:
round(offers[0]["price_pp"]) if offers else None. -/
def cash_pp : List CashOffer → Option Int
  | [] => none
  | o :: _ => some (pyRound o.price_pp)

/-- pts_pp helper of summarise_for_state:
offers[0]["points_pp"] if offers else None. -/
def pts_pp : List RewardOffer → Option Int
  | [] => none
  | o :: _ => some o.points_pp

/-- summarise_for_state (source lines 512-531).  The two mad_doh arguments
are accepted and ignored, exactly as in the source, which never reads them. -/
def summarise_for_state (cash_biz : List CashOffer) (pts_biz : List RewardOffer)
    (cash_biz_mad_doh : List CashOffer) (pts_biz_mad_doh : List RewardOffer)
    (cash_biz_doh_syd : List CashOffer) (pts_biz_doh_syd : List RewardOffer)
    (cash_eco : List CashOffer) (pts_eco : List RewardOffer) : Snapshot where
  biz_cash_pp := cash_pp cash_biz
  biz_pts_pp_through := pts_pp pts_biz
  biz_pts_pp_doh_syd := pts_pp pts_biz_doh_syd
  eco_cash_pp := cash_pp cash_eco
  eco_pts_pp := pts_pp pts_eco
  biz_seats_through := some (match pts_biz with | [] => 0 | o :: _ => o.seats_avail)
  biz_seats_doh_syd := some (match pts_biz_doh_syd with | [] => 0 | o :: _ => o.seats_avail)

/-- What the cash price metric actually holds, stated over the raw pool fed
to the selector: the cheapest preferred offer's rounded per-person price if
a preferred offer exists, otherwise the cheapest non-preferred offer's — a
non-preferred projection, not an absent entry — and none only when the pool
is empty. -/
def cashMetric (pool : List CashOffer) : Option Int :=
  match firstMinBy (fun o => o.price_total) (pool.filter (fun o => o.is_qatar)),
      firstMinBy (fun o => o.price_total) (pool.filter (fun o => !o.is_qatar)) with
  | some q, _ => some (pyRound q.price_pp)
  | none, some o => some (pyRound o.price_pp)
  | none, none => none

/-- The points metric over the raw pool, same shape as cashMetric. -/
def ptsMetric (pool : List RewardOffer) : Option Int :=
  match firstMinBy (fun o => o.points_pp) (pool.filter (fun o => o.is_qatar)),
      firstMinBy (fun o => o.points_pp) (pool.filter (fun o => !o.is_qatar)) with
  | some q, _ => some q.points_pp
  | none, some o => some o.points_pp
  | none, none => none

/-- The seats metric over the raw pool: the selected offer's seat count, or
the default 0 when the pool is empty — never absent. -/
def seatsMetric (pool : List RewardOffer) : Int :=
  match firstMinBy (fun o => o.points_pp) (pool.filter (fun o => o.is_qatar)),
      firstMinBy (fun o => o.points_pp) (pool.filter (fun o => !o.is_qatar)) with
  | some q, _ => q.seats_avail
  | none, some o => o.seats_avail
  | none, none => 0

lemma cash_pp_core (p : List CashOffer) :
    cash_pp (search_cash_fares_core p) = cashMetric p := by
  rw [search_cash_fares_core_eq, cashMetric]
  cases h1 : firstMinBy (fun o => o.price_total) (p.filter (fun o => o.is_qatar)) <;>
    cases h2 : firstMinBy (fun o => o.price_total) (p.filter (fun o => !o.is_qatar)) <;>
    simp [cash_pp]

lemma pts_pp_core (p : List RewardOffer) :
    pts_pp (search_velocity_seats_core p) = ptsMetric p := by
  rw [search_velocity_seats_core_eq, ptsMetric]
  cases h1 : firstMinBy (fun o => o.points_pp) (p.filter (fun o => o.is_qatar)) <;>
    cases h2 : firstMinBy (fun o => o.points_pp) (p.filter (fun o => !o.is_qatar)) <;>
    simp [pts_pp]

lemma seats_core (p : List RewardOffer) :
    (match search_velocity_seats_core p with
      | [] => (0 : Int)
      | o :: _ => o.seats_avail) = seatsMetric p := by
  rw [search_velocity_seats_core_eq, seatsMetric]
  cases h1 : firstMinBy (fun o => o.points_pp) (p.filter (fun o => o.is_qatar)) <;>
    cases h2 : firstMinBy (fun o => o.points_pp) (p.filter (fun o => !o.is_qatar)) <;>
    simp

/-- C3 (amended): fed the selector outputs, each price metric of the
snapshot is the projection of the first selected offer — the cheapest
preferred-carrier offer when one exists, otherwise the cheapest
non-preferred offer — and is absent exactly when the pool is empty; the two
seat metrics are never absent and are silently coerced to the default 0
when no reward offer exists. -/
theorem snapshot_entries (p1 : List CashOffer) (p2 : List RewardOffer)
    (p3 : List CashOffer) (p4 : List RewardOffer) (p5 : List CashOffer)
    (p6 : List RewardOffer) (p7 : List CashOffer) (p8 : List RewardOffer) :
    (summarise_for_state (search_cash_fares_core p1) (search_velocity_seats_core p2)
        (search_cash_fares_core p3) (search_velocity_seats_core p4)
        (search_cash_fares_core p5) (search_velocity_seats_core p6)
        (search_cash_fares_core p7) (search_velocity_seats_core p8)) =
      { biz_cash_pp := cashMetric p1
        biz_pts_pp_through := ptsMetric p2
        biz_pts_pp_doh_syd := ptsMetric p6
        eco_cash_pp := cashMetric p7
        eco_pts_pp := ptsMetric p8
        biz_seats_through := some (seatsMetric p2)
        biz_seats_doh_syd := some (seatsMetric p6) } := by
  rw [summarise_for_state.eq_def, cash_pp_core p1, pts_pp_core p2, pts_pp_core p6,
    cash_pp_core p7, pts_pp_core p8, seats_core p2, seats_core p6]

/-- C3 (counterexample): with no reward offers at all, the snapshot's
business-seats metric is the present value some 0, not absent; and with a
single non-preferred (EK) cash offer, the business-cash metric is a
projection of that non-preferred offer instead of being absent — refuting
both "absent when no preferred-carrier offer exists" and "no metric is
silently coerced to a default value such as 0". -/
theorem snapshot_default_counterexample :
    (summarise_for_state [] [] [] [] [] [] [] []).biz_seats_through = some 0 ∧
      (summarise_for_state [CashOffer.mk ["EK"] 100 50] [] [] [] [] [] [] []).biz_cash_pp
        = some 50 ∧
      (CashOffer.mk ["EK"] 100 50).is_qatar = false := by
  refine ⟨rfl, ?_, by decide⟩
  have h : pyRound (((50 : ℤ) : ℚ)) = (50 : ℤ) := pyRound_intCast 50
  norm_num at h
  simp [summarise_for_state, cash_pp, h]

/-- One entry of the diff report: the two sentinels, or a per-metric change
line (label, previous/current values, direction marker), mirroring the
strings built by build_diff. -/
inductive DiffEntry
  | firstRun
  | noChanges
  | nowAvailable (label : String) (cur : Int)
  | noLongerAvailable (label : String)
  | changed (label : String) (prev cur : Int) (emoji : Marker)
deriving DecidableEq

/-- One iteration of the build_diff loop for a metric with the given label;
ip is Python's is_price ("cash" in key or "pts" in key), sb is
"seats" in key.  Both values absent: skip; equal values: skip; otherwise a
new/gone/changed entry with the direction marker computed as in the code. -/
def diffEntry (label : String) (ip sb : Bool) (cur prev : Option Int) : Option DiffEntry :=
  match cur, prev with
  | none, none => none
  | _, _ =>
    if cur = prev then none
    else
      match prev, cur with
      | none, some c => some (.nowAvailable label c)
      | some _, none => some (.noLongerAvailable label)
      | some p, some c =>
        some (.changed label p c
          (if 0 < c - p ∧ ip = true then Marker.red
            else if c - p < 0 ∧ ip = true then Marker.green
            else if 0 < c - p ∧ sb = true then Marker.green else Marker.red))
      | none, none => none

/-- The loop body of build_diff over the seven metrics, in the fixed order
of the labels dict (source lines 539-572). -/
def diffChanges (current prev : Snapshot) : List DiffEntry :=
  (diffEntry "Business cash (pp)" true false current.biz_cash_pp prev.biz_cash_pp).toList
  ++ (diffEntry "Business points through (pp)" true false
      current.biz_pts_pp_through prev.biz_pts_pp_through).toList
  ++ (diffEntry "DOH→SYD points (pp)" true false
      current.biz_pts_pp_doh_syd prev.biz_pts_pp_doh_syd).toList
  ++ (diffEntry "Economy cash (pp)" true false
      current.eco_cash_pp prev.eco_cash_pp).toList
  ++ (diffEntry "Economy points (pp)" true false
      current.eco_pts_pp prev.eco_pts_pp).toList
  ++ (diffEntry "Business seats (through)" false true
      current.biz_seats_through prev.biz_seats_through).toList
  ++ (diffEntry "Business seats (DOH→SYD)" false true
      current.biz_seats_doh_syd prev.biz_seats_doh_syd).toList

/-- build_diff (source lines 534-574): an absent (or empty, hence falsy)
previous state short-circuits to the "first run" sentinel; otherwise the
per-metric entries, or the "no changes" sentinel when none were produced. -/
def build_diff (current : Snapshot) (previous : Option Snapshot) : List DiffEntry :=
  match previous with
  | none => [.firstRun]
  | some prev =>
    if (diffChanges current prev).isEmpty then [.noChanges]
    else diffChanges current prev

lemma diffEntry_self (label : String) (ip sb : Bool) (v : Option Int) :
    diffEntry label ip sb v v = none := by
  cases v <;> simp [diffEntry]

/-- C9: for every snapshot S, build_diff S absent is exactly the single
"first run" sentinel, and build_diff S S on identical snapshots is exactly
the single "no changes" sentinel. -/
theorem change_detector_sentinels (S : Snapshot) :
    build_diff S none = [DiffEntry.firstRun] ∧
      build_diff S (some S) = [DiffEntry.noChanges] := by
  constructor
  · rfl
  · have hc : diffChanges S S = [] := by
      rw [diffChanges, diffEntry_self, diffEntry_self, diffEntry_self, diffEntry_self,
        diffEntry_self, diffEntry_self, diffEntry_self]
      rfl
    rw [build_diff, hc]
    rfl

end VelocityTracker
